import Mathlib

/-!
Verification of the trade-journal aggregation-and-persistence core.

The definitions below are a shallow embedding of the TypeScript sources:
  - src/src/types/index.ts          (domain model)
  - src/src/utils/statsCalculator.ts (statistics engine, chart-data shaper)
  - src/src/db/index.ts             (persistence wrappers over Dexie)
  - src/unnamed/part_005            (formatters: calculatePips)
JavaScript numbers are modelled as exact rationals (ℚ), JS `Date` values
either as calendar dates (year/month/day, for month bucketing) or as
rational epoch timestamps (for createdAt and updatedAt ordering).
-/

namespace TradeJournal

/-- The `EntryType` union from src/src/types/index.ts line 1:
`'2 touch' | '3 touch' | 'v touch' | 'mechanical' | 'override' | 'aft entry'`. -/
inductive EntryType where
  | twoTouch
  | threeTouch
  | vTouch
  | mechanical
  | override
  | aftEntry
deriving DecidableEq, Repr

/-- The `TradeOutcome` union: `'win' | 'loss' | 'breakeven'`. -/
inductive TradeOutcome where
  | win
  | loss
  | breakeven
deriving DecidableEq, Repr

/-- The `TradeType` union: `'executed' | 'missed'`. -/
inductive TradeType where
  | executed
  | missed
deriving DecidableEq, Repr

/-- The `direction` union on `Trade`: `'buy' | 'sell'`. -/
inductive Direction where
  | buy
  | sell
deriving DecidableEq, Repr

/-- A JS `Date` restricted to its calendar components, as used by the month
bucketing in `generateChartData`.  `month` is 0-based (0 = January), matching
`Date.getMonth`. -/
structure JSDate where
  year : Int
  month : Nat
  day : Nat
deriving DecidableEq, Repr

/-- The `TimeframeScreenshots` interface from src/src/types/index.ts. -/
structure TimeframeScreenshots where
  weekly : Option String := none
  daily : Option String := none
  fourHour : Option String := none
  oneHour : Option String := none
  fifteenMin : Option String := none
  fiveMin : Option String := none
deriving DecidableEq, Repr

/-- The `BacktestScreenshot` interface from src/src/types/index.ts.
`createdAt` is a JS `Date` modelled as a rational epoch timestamp. -/
structure BacktestScreenshot where
  id : String
  description : String
  dataUrl : String
  currencyPair : String
  entryType : EntryType
  timeframe : String
  strategy : Option String := none
  notes : Option String := none
  createdAt : ℚ
  tags : Option (List String) := none
deriving DecidableEq, Repr

/-- The `TradeMedia` interface from src/src/types/index.ts. -/
structure TradeMedia where
  before : List String := []
  after : List String := []
  videos : List String := []
  audioDescription : Option String := none
deriving DecidableEq, Repr

/-- The `Trade` interface from src/src/types/index.ts lines 34-57.
The position-size field is declared as `volume` in the interface; the trade
records created by TradeForm.tsx store that same quantity under the key
`lotSize` (TradeForm.tsx line 263), and that key is what `calculateStats`
reads (statsCalculator.ts lines 39 and 42), so it is named `lotSize` here. -/
structure Trade where
  id : String
  pair : String
  entryType : EntryType
  outcome : TradeOutcome
  tradeType : TradeType
  direction : Direction
  entryDate : JSDate
  entryPrice : ℚ
  exitPrice : ℚ
  stopLoss : ℚ
  takeProfit : ℚ
  lotSize : ℚ
  riskRewardRatio : ℚ
  stopLossAmount : ℚ
  takeProfitAmount : ℚ
  breakEvenAmount : Option ℚ := none
  notes : Option String := none
  media : TradeMedia := {}
  timeframeScreenshots : TimeframeScreenshots := {}
  backtestScreenshots : List BacktestScreenshot := []
  createdAt : ℚ
  updatedAt : ℚ
deriving DecidableEq, Repr

/-- The `MissedTrade` interface from src/src/types/index.ts. -/
structure MissedTrade where
  id : String
  pair : String
  entryType : EntryType
  missedDate : JSDate
  potentialEntry : ℚ
  potentialExit : ℚ
  potentialPips : ℚ
  reason : String
  notes : Option String := none
  media : TradeMedia := {}
  timeframeScreenshots : TimeframeScreenshots := {}
  createdAt : ℚ
  updatedAt : ℚ
deriving DecidableEq, Repr

/-- One value of the `byEntryType` record built by `calculateStats`
(statsCalculator.ts lines 17-21). -/
structure EntryTypeStats where
  total : Nat
  wins : Nat
  losses : Nat
  breakeven : Nat
  winRate : ℚ
deriving DecidableEq, Repr

/-- The statistics object `calculateStats` actually builds
(statsCalculator.ts lines 8-23).  The `byEntryType` JS object is embedded as
an association list in the source's key-insertion order.  Note the source's
object literal carries only these fields, although the declared `TradeStats`
interface in src/src/types/index.ts additionally declares `totalPips`,
`averagePips` and `byMonth`, which `calculateStats` never produces. -/
structure TradeStats where
  totalTrades : Nat
  wins : Nat
  losses : Nat
  breakeven : Nat
  winRate : ℚ
  averageRR : ℚ
  profitFactor : ℚ
  byEntryType : List (EntryType × EntryTypeStats)
deriving DecidableEq, Repr

/-- Lookup in an association list modelling JS object property access
(`obj[key]`, `undefined` when the key is absent). -/
def assocFind {κ β : Type} [DecidableEq κ] (k : κ) : List (κ × β) → Option β
  | [] => none
  | (k', v) :: rest => if k = k' then some v else assocFind k rest

/-- In-place update of an existing key of an association list, modelling a JS
object property write to a key already present (insertion order kept). -/
def updAssoc {κ β : Type} [DecidableEq κ] (k : κ) (f : β → β) :
    List (κ × β) → List (κ × β)
  | [] => []
  | (k', v) :: rest => if k' = k then (k', f v) :: rest else (k', v) :: updAssoc k f rest

/-- The zero-initialized per-entry-type counters of statsCalculator.ts. -/
def zeroEntryTypeStats : EntryTypeStats :=
  { total := 0, wins := 0, losses := 0, breakeven := 0, winRate := 0 }

/-- The initial `byEntryType` object of statsCalculator.ts lines 16-22.
The source lists exactly five keys, omitting `'aft entry'` even though the
`EntryType` union (types/index.ts line 1) has six members. -/
def initByEntryType : List (EntryType × EntryTypeStats) :=
  [ (EntryType.twoTouch, zeroEntryTypeStats)
  , (EntryType.threeTouch, zeroEntryTypeStats)
  , (EntryType.vTouch, zeroEntryTypeStats)
  , (EntryType.mechanical, zeroEntryTypeStats)
  , (EntryType.override, zeroEntryTypeStats) ]

/-- The accumulator state of the single `trades.forEach` pass of
`calculateStats`: the mutable counters of the `stats` object together with
the local variables `totalRR`, `totalProfit`, `totalLoss`. -/
@[ext]
structure StatsAcc where
  wins : Nat
  losses : Nat
  breakeven : Nat
  totalRR : ℚ
  totalProfit : ℚ
  totalLoss : ℚ
  byEntryType : List (EntryType × EntryTypeStats)
deriving DecidableEq, Repr

/-- The accumulator before the pass starts. -/
def initAcc : StatsAcc :=
  { wins := 0, losses := 0, breakeven := 0
  , totalRR := 0, totalProfit := 0, totalLoss := 0
  , byEntryType := initByEntryType }

/-- Per-trade entry-type counter bump (statsCalculator.ts lines 50-60):
`total += 1`, then one of `wins`/`losses`/`breakeven` += 1 by outcome. -/
def bumpEntryTypeStats (o : TradeOutcome) (e : EntryTypeStats) : EntryTypeStats :=
  { e with
    total := e.total + 1
    wins := e.wins + (match o with | .win => 1 | _ => 0)
    losses := e.losses + (match o with | .loss => 1 | _ => 0)
    breakeven := e.breakeven + (match o with | .breakeven => 1 | _ => 0) }

/-- One iteration of the `trades.forEach` body (statsCalculator.ts lines
35-60).  When `trade.entryType` is not a key of `stats.byEntryType` (which
happens exactly for `'aft entry'` on the initial table), the JS code reads
`undefined` and `entryTypeStats.total += 1` throws a `TypeError`, modelled
as `Except.error ()`. -/
def stepTrade (s : StatsAcc) (t : Trade) : Except Unit StatsAcc :=
  let s1 : StatsAcc :=
    match t.outcome with
    | .win =>
        { s with wins := s.wins + 1
               , totalProfit := s.totalProfit + (t.exitPrice - t.entryPrice) * t.lotSize }
    | .loss =>
        { s with losses := s.losses + 1
               , totalLoss := s.totalLoss + (t.entryPrice - t.exitPrice) * t.lotSize }
    | .breakeven =>
        { s with breakeven := s.breakeven + 1 }
  let s2 : StatsAcc := { s1 with totalRR := s1.totalRR + t.riskRewardRatio }
  match assocFind t.entryType s2.byEntryType with
  | none => .error ()
  | some _ =>
      .ok { s2 with byEntryType := updAssoc t.entryType (bumpEntryTypeStats t.outcome) s2.byEntryType }

/-- The forEach step lifted over an already-raised exception (a thrown
`TypeError` aborts the whole loop). -/
def stepE (s : Except Unit StatsAcc) (t : Trade) : Except Unit StatsAcc :=
  match s with
  | .error e => .error e
  | .ok a => stepTrade a t

/-- The final per-entry-type `winRate` pass (statsCalculator.ts lines 69-75):
for every key with `total > 0`, `winRate = wins / total * 100`. -/
def finishWinRates (l : List (EntryType × EntryTypeStats)) :
    List (EntryType × EntryTypeStats) :=
  l.map (fun p =>
    if p.2.total > 0 then
      (p.1, { p.2 with winRate := (p.2.wins : ℚ) / (p.2.total : ℚ) * 100 })
    else p)

/-- The `stats` object as first initialized (statsCalculator.ts lines 8-23),
with `totalTrades = trades.length`. -/
def initialStats (n : Nat) : TradeStats :=
  { totalTrades := n, wins := 0, losses := 0, breakeven := 0
  , winRate := 0, averageRR := 0, profitFactor := 0
  , byEntryType := initByEntryType }

/-- `calculateStats` from src/src/utils/statsCalculator.ts lines 6-78:
early return of the zero stats on the empty input, otherwise one
`forEach` pass followed by the derived fields
`winRate = wins / totalTrades * 100`, `averageRR = totalRR / totalTrades`,
`profitFactor = totalLoss > 0 ? totalProfit / totalLoss : 0` and the
per-entry-type `winRate` pass. -/
def calculateStats (trades : List Trade) : Except Unit TradeStats :=
  if trades.length = 0 then .ok (initialStats 0)
  else
    match trades.foldl stepE (.ok initAcc) with
    | .error e => .error e
    | .ok a =>
        .ok { totalTrades := trades.length
            , wins := a.wins, losses := a.losses, breakeven := a.breakeven
            , winRate := (a.wins : ℚ) / (trades.length : ℚ) * 100
            , averageRR := a.totalRR / (trades.length : ℚ)
            , profitFactor := if a.totalLoss > 0 then a.totalProfit / a.totalLoss else 0
            , byEntryType := finishWinRates a.byEntryType }

/-- A concrete winning trade (2-touch EUR/USD, entry 1, exit 2, size 3). -/
def sampleWin : Trade :=
  { id := "t-win", pair := "EUR/USD", entryType := .twoTouch, outcome := .win
  , tradeType := .executed, direction := .buy, entryDate := ⟨2025, 0, 15⟩
  , entryPrice := 1, exitPrice := 2, stopLoss := 0, takeProfit := 2
  , lotSize := 3, riskRewardRatio := 2, stopLossAmount := 10, takeProfitAmount := 20
  , createdAt := 0, updatedAt := 0 }

/-- A concrete losing trade (mechanical GBP/USD, entry 2, exit 1, size 1). -/
def sampleLoss : Trade :=
  { id := "t-loss", pair := "GBP/USD", entryType := .mechanical, outcome := .loss
  , tradeType := .executed, direction := .sell, entryDate := ⟨2025, 1, 10⟩
  , entryPrice := 2, exitPrice := 1, stopLoss := 3, takeProfit := 1
  , lotSize := 1, riskRewardRatio := 1, stopLossAmount := 5, takeProfitAmount := 5
  , createdAt := 0, updatedAt := 0 }

/-- A concrete trade whose entry type is `'aft entry'`, the key missing from
the `byEntryType` table of statsCalculator.ts. -/
def sampleAft : Trade :=
  { id := "t-aft", pair := "EUR/USD", entryType := .aftEntry, outcome := .win
  , tradeType := .executed, direction := .buy, entryDate := ⟨2025, 2, 5⟩
  , entryPrice := 1, exitPrice := 2, stopLoss := 0, takeProfit := 2
  , lotSize := 1, riskRewardRatio := 1, stopLossAmount := 1, takeProfitAmount := 1
  , createdAt := 0, updatedAt := 0 }

/-- An exception aborts the rest of the forEach pass. -/
lemma foldl_stepE_error (ts : List Trade) (e : Unit) :
    ts.foldl stepE (.error e) = .error e := by
  induction ts with
  | nil => rfl
  | cons t ts ih => simpa [stepE] using ih

/-- Field-level description of one successful forEach iteration. -/
lemma stepTrade_fields {s : StatsAcc} {t : Trade} {b : StatsAcc}
    (h : stepTrade s t = .ok b) :
    b.wins = s.wins + (match t.outcome with | .win => 1 | _ => 0)
  ∧ b.losses = s.losses + (match t.outcome with | .loss => 1 | _ => 0)
  ∧ b.breakeven = s.breakeven + (match t.outcome with | .breakeven => 1 | _ => 0)
  ∧ b.totalRR = s.totalRR + t.riskRewardRatio
  ∧ b.totalProfit = s.totalProfit
      + (match t.outcome with | .win => (t.exitPrice - t.entryPrice) * t.lotSize | _ => 0)
  ∧ b.totalLoss = s.totalLoss
      + (match t.outcome with | .loss => (t.entryPrice - t.exitPrice) * t.lotSize | _ => 0)
  ∧ b.byEntryType = updAssoc t.entryType (bumpEntryTypeStats t.outcome) s.byEntryType := by
  cases ho : t.outcome <;>
    simp only [stepTrade, ho] at h <;>
    cases hf : assocFind t.entryType s.byEntryType <;>
    rw [hf] at h <;>
    simp_all <;>
    simp [← h]

/-- A successful iteration errors exactly when the entry type is missing. -/
lemma stepTrade_isOk_iff {s : StatsAcc} {t : Trade} :
    (∃ b, stepTrade s t = .ok b) ↔ (assocFind t.entryType s.byEntryType).isSome := by
  cases ho : t.outcome <;>
    simp only [stepTrade, ho] <;>
    cases hf : assocFind t.entryType s.byEntryType <;>
    simp [hf]

/-- Per-trade contribution to the local variable `totalProfit`. -/
def profitSum : List Trade → ℚ
  | [] => 0
  | t :: ts =>
      (match t.outcome with | .win => (t.exitPrice - t.entryPrice) * t.lotSize | _ => 0)
      + profitSum ts

/-- Per-trade contribution to the local variable `totalLoss`. -/
def lossSum : List Trade → ℚ
  | [] => 0
  | t :: ts =>
      (match t.outcome with | .loss => (t.entryPrice - t.exitPrice) * t.lotSize | _ => 0)
      + lossSum ts

/-- The forEach pass counts every trade exactly once across the three
outcome counters and accumulates the profit and loss sums. -/
lemma foldl_stepE_spec (ts : List Trade) :
    ∀ {a b : StatsAcc}, ts.foldl stepE (.ok a) = .ok b →
      b.wins + b.losses + b.breakeven = a.wins + a.losses + a.breakeven + ts.length
    ∧ b.totalProfit = a.totalProfit + profitSum ts
    ∧ b.totalLoss = a.totalLoss + lossSum ts := by
  induction ts with
  | nil =>
      intro a b h
      simp only [List.foldl_nil, Except.ok.injEq] at h
      subst h
      simp [profitSum, lossSum]
  | cons t ts ih =>
      intro a b h
      simp only [List.foldl_cons, stepE] at h
      cases hs : stepTrade a t with
      | error e => rw [hs] at h; rw [foldl_stepE_error] at h; cases h
      | ok a' =>
          rw [hs] at h
          obtain ⟨h1, h2, h3, _, h5, h6, _⟩ := stepTrade_fields hs
          obtain ⟨g1, g2, g3⟩ := ih h
          refine ⟨?_, ?_, ?_⟩
          · rw [g1, h1, h2, h3]
            cases t.outcome <;> simp <;> omega
          · rw [g2, h5, profitSum]
            ring
          · rw [g3, h6, lossSum]
            ring

/-- If no trade has outcome `'loss'`, the loss accumulator stays zero. -/
lemma lossSum_eq_zero {ts : List Trade} (h : ∀ t ∈ ts, t.outcome ≠ TradeOutcome.loss) :
    lossSum ts = 0 := by
  induction ts with
  | nil => rfl
  | cons t ts ih =>
      have ht := h t (by simp)
      have hts := ih (fun u hu => h u (by simp [hu]))
      cases ho : t.outcome <;> simp_all [lossSum, ho]

/-- C1: in the single forEach pass of `calculateStats`, a trade with outcome
`'win'` whose `(exitPrice − entryPrice) × lot size` is positive increases the
realized-profit sum by exactly that quantity and leaves the loss sum
unchanged; a trade with outcome `'loss'` whose `(entryPrice − exitPrice) ×
lot size` is positive increases the loss-magnitude sum by exactly that
quantity and leaves the profit sum unchanged; a breakeven trade changes
neither sum. -/
theorem calculateStats_single_pass_sums (s : StatsAcc) (t : Trade) (b : StatsAcc)
    (h : stepTrade s t = .ok b) :
    (t.outcome = TradeOutcome.win → 0 < (t.exitPrice - t.entryPrice) * t.lotSize →
      b.totalProfit = s.totalProfit + (t.exitPrice - t.entryPrice) * t.lotSize
      ∧ b.totalLoss = s.totalLoss)
  ∧ (t.outcome = TradeOutcome.loss → 0 < (t.entryPrice - t.exitPrice) * t.lotSize →
      b.totalLoss = s.totalLoss + (t.entryPrice - t.exitPrice) * t.lotSize
      ∧ b.totalProfit = s.totalProfit)
  ∧ (t.outcome = TradeOutcome.breakeven →
      b.totalProfit = s.totalProfit ∧ b.totalLoss = s.totalLoss) := by
  obtain ⟨_, _, _, _, h5, h6, _⟩ := stepTrade_fields h
  refine ⟨fun ho _ => ?_, fun ho _ => ?_, fun ho => ?_⟩ <;>
    rw [ho] at h5 h6 <;> simp_all

/-- The state of the pass after processing the sample winning trade. -/
def sampleWinStep : StatsAcc := ((stepTrade initAcc sampleWin).toOption).getD initAcc

/-- Witness for C1 at the sample winning trade. -/
theorem calculateStats_single_pass_sums_witness :
    stepTrade initAcc sampleWin = .ok sampleWinStep
  ∧ sampleWin.outcome = TradeOutcome.win
  ∧ 0 < (sampleWin.exitPrice - sampleWin.entryPrice) * sampleWin.lotSize
  ∧ sampleWinStep.totalProfit
      = initAcc.totalProfit + (sampleWin.exitPrice - sampleWin.entryPrice) * sampleWin.lotSize
  ∧ sampleWinStep.totalLoss = initAcc.totalLoss := by
  have hpos : 0 < (sampleWin.exitPrice - sampleWin.entryPrice) * sampleWin.lotSize := by
    norm_num [sampleWin]
  have h := calculateStats_single_pass_sums initAcc sampleWin sampleWinStep rfl
  exact ⟨rfl, rfl, hpos, (h.1 rfl hpos).1, (h.1 rfl hpos).2⟩

/-- C2 (code bug): on the empty input `calculateStats` does return a zeroed
stats object (`totalTrades = 0`, all three rates 0), but its per-entry-type
table holds a zero entry for only five of the six `EntryType` members:
`'aft entry'` is missing from the initializer, and indeed a trade with entry
type `'aft entry'` makes `calculateStats` throw rather than compute stats. -/
theorem calculateStats_empty_missing_aftEntry :
    calculateStats [] = .ok (initialStats 0)
  ∧ (initialStats 0).totalTrades = 0
  ∧ (initialStats 0).winRate = 0
  ∧ (initialStats 0).averageRR = 0
  ∧ (initialStats 0).profitFactor = 0
  ∧ assocFind EntryType.twoTouch (initialStats 0).byEntryType = some zeroEntryTypeStats
  ∧ assocFind EntryType.threeTouch (initialStats 0).byEntryType = some zeroEntryTypeStats
  ∧ assocFind EntryType.vTouch (initialStats 0).byEntryType = some zeroEntryTypeStats
  ∧ assocFind EntryType.mechanical (initialStats 0).byEntryType = some zeroEntryTypeStats
  ∧ assocFind EntryType.override (initialStats 0).byEntryType = some zeroEntryTypeStats
  ∧ assocFind EntryType.aftEntry (initialStats 0).byEntryType = none
  ∧ (initialStats 0).byEntryType.length = 5
  ∧ calculateStats [sampleAft] = .error () :=
  ⟨rfl, rfl, rfl, rfl, rfl, rfl, rfl, rfl, rfl, rfl, rfl, rfl, rfl⟩

/-- C5: whenever `calculateStats` returns a stats object on a non-empty
input, the three outcome counters add up to `totalTrades`. -/
theorem calculateStats_counts_sum (ts : List Trade) (s : TradeStats)
    (hne : ts ≠ []) (h : calculateStats ts = .ok s) :
    s.wins + s.losses + s.breakeven = s.totalTrades := by
  have hlen : ¬ ts.length = 0 := by simpa [List.length_eq_zero] using hne
  unfold calculateStats at h
  rw [if_neg hlen] at h
  cases hf : ts.foldl stepE (.ok initAcc) with
  | error e => rw [hf] at h; cases h
  | ok a =>
      rw [hf] at h
      obtain ⟨g1, _, _⟩ := foldl_stepE_spec ts hf
      simp only [Except.ok.injEq] at h
      subst h
      simp only [initAcc] at g1
      simpa using g1

/-- The stats object computed for the one-trade list `[sampleWin]`. -/
def sampleStats1 : TradeStats :=
  ((calculateStats [sampleWin]).toOption).getD (initialStats 0)

/-- Witness for C5 at the one-trade list `[sampleWin]`. -/
theorem calculateStats_counts_sum_witness :
    [sampleWin] ≠ ([] : List Trade)
  ∧ calculateStats [sampleWin] = .ok sampleStats1
  ∧ sampleStats1.wins + sampleStats1.losses + sampleStats1.breakeven
      = sampleStats1.totalTrades :=
  ⟨by simp, rfl, calculateStats_counts_sum [sampleWin] sampleStats1 (by simp) rfl⟩

/-- C6: whenever `calculateStats` returns a stats object, `profitFactor` is
`totalProfit / totalLoss` if the accumulated loss sum is positive and `0`
otherwise; in particular it is `0` whenever no trade has outcome `'loss'`,
however large the winning trades' profit. -/
theorem calculateStats_profitFactor (ts : List Trade) (s : TradeStats)
    (h : calculateStats ts = .ok s) :
    s.profitFactor = (if lossSum ts > 0 then profitSum ts / lossSum ts else 0)
  ∧ ((∀ t ∈ ts, t.outcome ≠ TradeOutcome.loss) → s.profitFactor = 0) := by
  by_cases hlen : ts.length = 0
  · have hnil : ts = [] := List.length_eq_zero.mp hlen
    subst hnil
    unfold calculateStats at h
    simp only [List.length_nil, if_true, Except.ok.injEq, reduceIte] at h
    subst h
    exact ⟨by simp [initialStats, lossSum], fun _ => rfl⟩
  · unfold calculateStats at h
    rw [if_neg hlen] at h
    cases hf : ts.foldl stepE (.ok initAcc) with
    | error e => rw [hf] at h; cases h
    | ok a =>
        rw [hf] at h
        obtain ⟨_, g2, g3⟩ := foldl_stepE_spec ts hf
        simp only [Except.ok.injEq] at h
        subst h
        simp only [initAcc] at g2 g3
        rw [zero_add] at g2 g3
        constructor
        · simp [g2, g3]
        · intro hnl
          have hz : lossSum ts = 0 := lossSum_eq_zero hnl
          simp [g3, hz]

/-- Witness for C6 at the loss-free one-trade list `[sampleWin]`. -/
theorem calculateStats_profitFactor_witness :
    calculateStats [sampleWin] = .ok sampleStats1
  ∧ (∀ t ∈ [sampleWin], t.outcome ≠ TradeOutcome.loss)
  ∧ sampleStats1.profitFactor = 0 := by
  have hnl : ∀ t ∈ [sampleWin], t.outcome ≠ TradeOutcome.loss := by
    intro t ht
    rw [List.mem_singleton] at ht
    subst ht
    simp [sampleWin]
  exact ⟨rfl, hnl, (calculateStats_profitFactor [sampleWin] sampleStats1 rfl).2 hnl⟩

/-- Lookup after an in-place association-list update. -/
lemma assocFind_updAssoc {κ β : Type} [DecidableEq κ] (k k' : κ) (f : β → β)
    (l : List (κ × β)) :
    assocFind k' (updAssoc k f l)
      = if k' = k then (assocFind k' l).map f else assocFind k' l := by
  induction l with
  | nil => simp [updAssoc, assocFind]
  | cons p l ih =>
      obtain ⟨k₀, v⟩ := p
      by_cases h1 : k₀ = k
      · subst h1
        by_cases h2 : k' = k₀
        · subst h2
          simp [updAssoc, assocFind]
        · simp [updAssoc, assocFind, h2]
      · by_cases h2 : k' = k₀
        · subst h2
          simp [updAssoc, assocFind, h1]
        · simp [updAssoc, assocFind, h1, h2, ih]

/-- Two in-place updates commute when the value maps commute at a shared key. -/
lemma updAssoc_comm {κ β : Type} [DecidableEq κ] (k₁ k₂ : κ) (f g : β → β)
    (hfg : ∀ v, f (g v) = g (f v)) (l : List (κ × β)) :
    updAssoc k₁ f (updAssoc k₂ g l) = updAssoc k₂ g (updAssoc k₁ f l) := by
  induction l with
  | nil => simp [updAssoc]
  | cons p l ih =>
      obtain ⟨k₀, v⟩ := p
      by_cases h1 : k₀ = k₁
      · subst h1
        by_cases h2 : k₀ = k₂
        · subst h2
          simp [updAssoc, hfg]
        · simp [updAssoc, h2]
      · by_cases h2 : k₀ = k₂
        · subst h2
          simp [updAssoc, h1]
        · simp [updAssoc, h1, h2, ih]

/-- The per-entry-type counter bumps of two trades commute. -/
lemma bumpEntryTypeStats_comm (o₁ o₂ : TradeOutcome) (e : EntryTypeStats) :
    bumpEntryTypeStats o₁ (bumpEntryTypeStats o₂ e)
      = bumpEntryTypeStats o₂ (bumpEntryTypeStats o₁ e) := by
  cases o₁ <;> cases o₂ <;> simp [bumpEntryTypeStats]

/-- A forEach iteration throws exactly when the trade's entry type is not a
key of the `byEntryType` table. -/
lemma stepTrade_error_iff {s : StatsAcc} {t : Trade} {e : Unit} :
    stepTrade s t = .error e ↔ assocFind t.entryType s.byEntryType = none := by
  cases ho : t.outcome <;>
    simp only [stepTrade, ho] <;>
    cases hf : assocFind t.entryType s.byEntryType <;>
    simp [hf]

/-- A successful iteration does not change which entry types are present. -/
lemma stepTrade_preserves_keys {s : StatsAcc} {t : Trade} {b : StatsAcc}
    (h : stepTrade s t = .ok b) (k : EntryType) :
    (assocFind k b.byEntryType).isSome = (assocFind k s.byEntryType).isSome := by
  obtain ⟨_, _, _, _, _, _, h7⟩ := stepTrade_fields h
  rw [h7, assocFind_updAssoc]
  split <;> cases assocFind k s.byEntryType <;> simp

/-- The exception-aware forEach step is commutative, so the accumulation is
order-independent. -/
lemma stepE_comm (z : Except Unit StatsAcc) (x y : Trade) :
    stepE (stepE z x) y = stepE (stepE z y) x := by
  cases z with
  | error e => rfl
  | ok a =>
      show stepE (stepTrade a x) y = stepE (stepTrade a y) x
      cases hx : stepTrade a x with
      | error ex =>
          cases hy : stepTrade a y with
          | error ey => rfl
          | ok bY =>
              show Except.error ex = stepTrade bY x
              have hnone : assocFind x.entryType a.byEntryType = none :=
                stepTrade_error_iff.mp hx
              have hkeys := stepTrade_preserves_keys hy x.entryType
              rw [hnone] at hkeys
              cases hbx : assocFind x.entryType bY.byEntryType with
              | some v => rw [hbx] at hkeys; simp at hkeys
              | none => cases ex; exact (stepTrade_error_iff.mpr hbx).symm
      | ok bX =>
          cases hy : stepTrade a y with
          | error ey =>
              show stepTrade bX y = Except.error ey
              have hnone : assocFind y.entryType a.byEntryType = none :=
                stepTrade_error_iff.mp hy
              have hkeys := stepTrade_preserves_keys hx y.entryType
              rw [hnone] at hkeys
              cases hby : assocFind y.entryType bX.byEntryType with
              | some v => rw [hby] at hkeys; simp at hkeys
              | none => cases ey; exact stepTrade_error_iff.mpr hby
          | ok bY =>
              show stepTrade bX y = stepTrade bY x
              have hsy : (assocFind y.entryType bX.byEntryType).isSome := by
                rw [stepTrade_preserves_keys hx y.entryType]
                rw [stepTrade_isOk_iff.mp ⟨bY, hy⟩]
              have hsx : (assocFind x.entryType bY.byEntryType).isSome := by
                rw [stepTrade_preserves_keys hy x.entryType]
                rw [stepTrade_isOk_iff.mp ⟨bX, hx⟩]
              obtain ⟨cX, hcX⟩ := stepTrade_isOk_iff.mpr hsy
              obtain ⟨cY, hcY⟩ := stepTrade_isOk_iff.mpr hsx
              rw [hcX, hcY]
              obtain ⟨x1, x2, x3, x4, x5, x6, x7⟩ := stepTrade_fields hx
              obtain ⟨y1, y2, y3, y4, y5, y6, y7⟩ := stepTrade_fields hy
              obtain ⟨cx1, cx2, cx3, cx4, cx5, cx6, cx7⟩ := stepTrade_fields hcX
              obtain ⟨cy1, cy2, cy3, cy4, cy5, cy6, cy7⟩ := stepTrade_fields hcY
              have : cX = cY := by
                ext : 1
                · rw [cx1, x1, cy1, y1]; omega
                · rw [cx2, x2, cy2, y2]; omega
                · rw [cx3, x3, cy3, y3]; omega
                · rw [cx4, x4, cy4, y4]; ring
                · rw [cx5, x5, cy5, y5]; ring
                · rw [cx6, x6, cy6, y6]; ring
                · rw [cx7, x7, cy7, y7]
                  exact updAssoc_comm y.entryType x.entryType
                    (bumpEntryTypeStats y.outcome) (bumpEntryTypeStats x.outcome)
                    (bumpEntryTypeStats_comm y.outcome x.outcome) a.byEntryType
              rw [this]

/-- C7: `calculateStats` is order-independent: permuting the input list does
not change the result. -/
theorem calculateStats_perm (ts ts' : List Trade) (h : ts.Perm ts') :
    calculateStats ts = calculateStats ts' := by
  have hlen := h.length_eq
  have hfold : ts.foldl stepE (.ok initAcc) = ts'.foldl stepE (.ok initAcc) :=
    h.foldl_eq' (fun x _ y _ z => stepE_comm z x y) _
  unfold calculateStats
  rw [hlen, hfold]

/-- Witness for C7: swapping the two trades of a two-trade list. -/
theorem calculateStats_perm_witness :
    ([sampleWin, sampleLoss].Perm [sampleLoss, sampleWin])
  ∧ calculateStats [sampleWin, sampleLoss] = calculateStats [sampleLoss, sampleWin] :=
  ⟨List.Perm.swap sampleLoss sampleWin [],
   calculateStats_perm _ _ (List.Perm.swap sampleLoss sampleWin [])⟩

/-- Overwriting the `tradeType` field of a trade, as in the hyperproperty of
claim C10. -/
def setTradeType (t : Trade) (v : TradeType) : Trade := { t with tradeType := v }

/-- The forEach step never reads `tradeType`. -/
lemma stepE_tradeType (z : Except Unit StatsAcc) (t : Trade) (v : TradeType) :
    stepE z (setTradeType t v) = stepE z t := by
  cases z with
  | error e => rfl
  | ok a => rfl

/-- Replacing one trade's `tradeType` does not change the forEach pass. -/
lemma foldl_set_tradeType (ts : List Trade) :
    ∀ (i : Nat) (v : TradeType) (z : Except Unit StatsAcc) (h : i < ts.length),
      (ts.set i (setTradeType (ts.get ⟨i, h⟩) v)).foldl stepE z = ts.foldl stepE z := by
  induction ts with
  | nil => intro i v z h; exact absurd h (Nat.not_lt_zero i)
  | cons t ts ih =>
      intro i v z h
      cases i with
      | zero =>
          simp only [List.set, List.get, List.foldl_cons]
          rw [stepE_tradeType]
      | succ i =>
          simp only [List.set, List.get, List.foldl_cons]
          exact ih i v _ (Nat.lt_of_succ_lt_succ h)

/-- C10: `calculateStats` does not distinguish executed from missed trades:
replacing the `tradeType` of any one trade in the list leaves the whole
returned statistics object unchanged. -/
theorem calculateStats_ignores_tradeType (ts : List Trade) (i : Nat) (v : TradeType)
    (h : i < ts.length) :
    calculateStats (ts.set i (setTradeType (ts.get ⟨i, h⟩) v)) = calculateStats ts := by
  unfold calculateStats
  rw [List.length_set, foldl_set_tradeType ts i v _ h]

/-- Witness for C10: marking the sample executed winning trade as missed. -/
theorem calculateStats_ignores_tradeType_witness :
    0 < [sampleWin].length
  ∧ calculateStats ([sampleWin].set 0
        (setTradeType ([sampleWin].get ⟨0, by simp⟩) TradeType.missed))
      = calculateStats [sampleWin] :=
  ⟨by simp, calculateStats_ignores_tradeType [sampleWin] 0 TradeType.missed (by simp)⟩

/-- Character-list prefix test, the inner loop of a JS-style substring scan. -/
def startsWithChars : List Char → List Char → Bool
  | [], _ => true
  | _ :: _, [] => false
  | a :: as, b :: bs => (a == b) && startsWithChars as bs

/-- Substring scan over character lists: does the haystack contain the
needle as a contiguous run? -/
def hasSubChars (needle : List Char) : List Char → Bool
  | [] => startsWithChars needle []
  | c :: cs => startsWithChars needle (c :: cs) || hasSubChars needle cs

/-- `hay.includes(needle)` from JS, on Lean strings. -/
def stringIncludes (hay needle : String) : Bool :=
  hasSubChars needle.toList hay.toList

/-- `calculatePips` from src/unnamed/part_005 lines 32-42:
`Math.abs(priceDiff) * 100` when the pair contains `"JPY"`, else
`Math.abs(priceDiff) * 10000`. -/
def calculatePips (priceDiff : ℚ) (pair : String) : ℚ :=
  if stringIncludes pair "JPY" then |priceDiff| * 100 else |priceDiff| * 10000

/-- `startsWithChars` decides the list-prefix relation. -/
lemma startsWithChars_iff (n : List Char) :
    ∀ h : List Char, startsWithChars n h = true ↔ n <+: h := by
  induction n with
  | nil => intro h; simp [startsWithChars]
  | cons a as ih =>
      intro h
      cases h with
      | nil => simp [startsWithChars]
      | cons b bs => simp [startsWithChars, List.cons_prefix_cons, ih, and_comm]

/-- `hasSubChars` decides the list-infix relation. -/
lemma hasSubChars_iff (n : List Char) :
    ∀ h : List Char, hasSubChars n h = true ↔ n <:+: h := by
  intro h
  induction h with
  | nil => simp [hasSubChars, startsWithChars_iff]
  | cons c cs ih =>
      rw [List.infix_cons_iff]
      simp [hasSubChars, startsWithChars_iff, ih]

/-- C8: `calculatePips` is a total function returning `|priceDiff| × 100`
when the pair symbol contains the substring `"JPY"` and `|priceDiff| × 10000`
otherwise; in particular `calculatePips 0.0050 "EUR/USD" = 50` and
`calculatePips 0.50 "USD/JPY" = 50`. -/
theorem calculatePips_spec (d : ℚ) (p : String) :
    calculatePips d p
      = (if "JPY".toList <:+: p.toList then |d| * 100 else |d| * 10000)
  ∧ calculatePips (1/200) "EUR/USD" = 50
  ∧ calculatePips (1/2) "USD/JPY" = 50 := by
  refine ⟨?_, ?_, ?_⟩
  · unfold calculatePips stringIncludes
    by_cases hs : "JPY".toList <:+: p.toList
    · rw [if_pos ((hasSubChars_iff _ _).mpr hs), if_pos hs]
    · rw [if_neg (fun hb => hs ((hasSubChars_iff _ _).mp hb)), if_neg hs]
  · have h1 : stringIncludes "EUR/USD" "JPY" = false := by decide
    unfold calculatePips
    rw [h1]
    rw [if_neg (by simp)]
    rw [abs_of_pos (by norm_num : (0:ℚ) < 1/200)]
    norm_num
  · have h2 : stringIncludes "USD/JPY" "JPY" = true := by decide
    unfold calculatePips
    rw [h2, if_pos rfl]
    rw [abs_of_pos (by norm_num : (0:ℚ) < 1/2)]
    norm_num

/-- The three Dexie tables of `TradeDatabase` (src/src/db/index.ts lines
4-18): `trades`, `missedTrades`, `backtests`. -/
structure Database where
  trades : List Trade
  missedTrades : List MissedTrade
  backtests : List BacktestScreenshot
deriving DecidableEq, Repr

/-- Primary-key lookup, modelling Dexie `table.get(id)`. -/
def findById {α : Type} (idOf : α → String) (id : String) : List α → Option α
  | [] => none
  | a :: rest => if idOf a = id then some a else findById idOf id rest

/-- Modify the record with the given primary key if present, modelling Dexie
`table.update(id, changes)`; a missing key changes nothing (Dexie resolves
with 0 updated records and does not throw). -/
def updById {α : Type} (idOf : α → String) (id : String) (g : α → α)
    (l : List α) : List α :=
  l.map (fun a => if idOf a = id then g a else a)

/-- The error kind the spec's NotFound taxonomy would use; the embedded
update operations are given this error channel so that "fails with NotFound"
is expressible, and the theorems show they never use it. -/
inductive DbError where
  | notFound
deriving DecidableEq, Repr

/-- The error raised by a failed import (spec: ImportFormatError). -/
inductive ImportError where
  | formatMismatch
deriving DecidableEq, Repr

/-- The `Partial<Omit<Trade, 'id' | 'createdAt' | 'updatedAt'>>` argument of
`updateTrade`: every updatable field optionally present. -/
structure TradePatch where
  pair : Option String := none
  entryType : Option EntryType := none
  outcome : Option TradeOutcome := none
  tradeType : Option TradeType := none
  direction : Option Direction := none
  entryDate : Option JSDate := none
  entryPrice : Option ℚ := none
  exitPrice : Option ℚ := none
  stopLoss : Option ℚ := none
  takeProfit : Option ℚ := none
  lotSize : Option ℚ := none
  riskRewardRatio : Option ℚ := none
  stopLossAmount : Option ℚ := none
  takeProfitAmount : Option ℚ := none
  breakEvenAmount : Option (Option ℚ) := none
  notes : Option (Option String) := none
  media : Option TradeMedia := none
  timeframeScreenshots : Option TimeframeScreenshots := none
  backtestScreenshots : Option (List BacktestScreenshot) := none
deriving DecidableEq, Repr

/-- Merging a patch into a stored trade, as `db.trades.update(id, {...trade,
updatedAt: new Date()})` does: patched fields overwrite, `id` and
`createdAt` are untouched, `updatedAt` becomes the current time. -/
def applyTradePatch (t : Trade) (p : TradePatch) (now : ℚ) : Trade :=
  { id := t.id
  , pair := p.pair.getD t.pair
  , entryType := p.entryType.getD t.entryType
  , outcome := p.outcome.getD t.outcome
  , tradeType := p.tradeType.getD t.tradeType
  , direction := p.direction.getD t.direction
  , entryDate := p.entryDate.getD t.entryDate
  , entryPrice := p.entryPrice.getD t.entryPrice
  , exitPrice := p.exitPrice.getD t.exitPrice
  , stopLoss := p.stopLoss.getD t.stopLoss
  , takeProfit := p.takeProfit.getD t.takeProfit
  , lotSize := p.lotSize.getD t.lotSize
  , riskRewardRatio := p.riskRewardRatio.getD t.riskRewardRatio
  , stopLossAmount := p.stopLossAmount.getD t.stopLossAmount
  , takeProfitAmount := p.takeProfitAmount.getD t.takeProfitAmount
  , breakEvenAmount := p.breakEvenAmount.getD t.breakEvenAmount
  , notes := p.notes.getD t.notes
  , media := p.media.getD t.media
  , timeframeScreenshots := p.timeframeScreenshots.getD t.timeframeScreenshots
  , backtestScreenshots := p.backtestScreenshots.getD t.backtestScreenshots
  , createdAt := t.createdAt
  , updatedAt := now }

/-- The `Partial<Omit<MissedTrade, 'id' | 'createdAt' | 'updatedAt'>>`
argument of `updateMissedTrade`. -/
structure MissedTradePatch where
  pair : Option String := none
  entryType : Option EntryType := none
  missedDate : Option JSDate := none
  potentialEntry : Option ℚ := none
  potentialExit : Option ℚ := none
  potentialPips : Option ℚ := none
  reason : Option String := none
  notes : Option (Option String) := none
  media : Option TradeMedia := none
  timeframeScreenshots : Option TimeframeScreenshots := none
deriving DecidableEq, Repr

/-- Merging a patch into a stored missed trade (`updatedAt` refreshed). -/
def applyMissedTradePatch (m : MissedTrade) (p : MissedTradePatch) (now : ℚ) :
    MissedTrade :=
  { id := m.id
  , pair := p.pair.getD m.pair
  , entryType := p.entryType.getD m.entryType
  , missedDate := p.missedDate.getD m.missedDate
  , potentialEntry := p.potentialEntry.getD m.potentialEntry
  , potentialExit := p.potentialExit.getD m.potentialExit
  , potentialPips := p.potentialPips.getD m.potentialPips
  , reason := p.reason.getD m.reason
  , notes := p.notes.getD m.notes
  , media := p.media.getD m.media
  , timeframeScreenshots := p.timeframeScreenshots.getD m.timeframeScreenshots
  , createdAt := m.createdAt
  , updatedAt := now }

/-- The `Partial<Omit<BacktestScreenshot, 'id' | 'createdAt'>>` argument of
`updateBacktest`. -/
structure BacktestPatch where
  description : Option String := none
  dataUrl : Option String := none
  currencyPair : Option String := none
  entryType : Option EntryType := none
  timeframe : Option String := none
  strategy : Option (Option String) := none
  notes : Option (Option String) := none
  tags : Option (Option (List String)) := none
deriving DecidableEq, Repr

/-- Merging a patch into a stored backtest screenshot; `updateBacktest`
passes the patch straight through, so no timestamp is refreshed. -/
def applyBacktestPatch (b : BacktestScreenshot) (p : BacktestPatch) :
    BacktestScreenshot :=
  { id := b.id
  , description := p.description.getD b.description
  , dataUrl := p.dataUrl.getD b.dataUrl
  , currencyPair := p.currencyPair.getD b.currencyPair
  , entryType := p.entryType.getD b.entryType
  , timeframe := p.timeframe.getD b.timeframe
  , strategy := p.strategy.getD b.strategy
  , notes := p.notes.getD b.notes
  , createdAt := b.createdAt
  , tags := p.tags.getD b.tags }

/-- `updateTrade` from src/src/db/index.ts lines 34-39: Dexie
`db.trades.update(id, {...trade, updatedAt: new Date()})`, whose resolved
count the wrapper ignores, so the call succeeds whether or not the id is
present. -/
def updateTrade (db : Database) (id : String) (p : TradePatch) (now : ℚ) :
    Except DbError Database :=
  .ok { db with trades := updById Trade.id id (fun t => applyTradePatch t p now) db.trades }

/-- `updateMissedTrade` from src/src/db/index.ts lines 76-81. -/
def updateMissedTrade (db : Database) (id : String) (p : MissedTradePatch) (now : ℚ) :
    Except DbError Database :=
  .ok { db with missedTrades :=
          updById MissedTrade.id id (fun m => applyMissedTradePatch m p now) db.missedTrades }

/-- `updateBacktest` from src/src/db/index.ts lines 107-109 (no timestamp
refresh). -/
def updateBacktest (db : Database) (id : String) (p : BacktestPatch) :
    Except DbError Database :=
  .ok { db with backtests := updById BacktestScreenshot.id id (fun b => applyBacktestPatch b p) db.backtests }

/-- `getTrade` from src/src/db/index.ts (Dexie `db.trades.get(id)`). -/
def getTrade (db : Database) (id : String) : Option Trade :=
  findById Trade.id id db.trades

/-- `getMissedTrade` from src/src/db/index.ts. -/
def getMissedTrade (db : Database) (id : String) : Option MissedTrade :=
  findById MissedTrade.id id db.missedTrades

/-- `getBacktest` from src/src/db/index.ts. -/
def getBacktest (db : Database) (id : String) : Option BacktestScreenshot :=
  findById BacktestScreenshot.id id db.backtests

/-- `getAllTrades` from src/src/db/index.ts (`db.trades.toArray()`). -/
def getAllTrades (db : Database) : List Trade := db.trades

/-- `getAllMissedTrades` from src/src/db/index.ts. -/
def getAllMissedTrades (db : Database) : List MissedTrade := db.missedTrades

/-- One step of sorting backtests newest-created-first. -/
def insertDescByCreatedAt (b : BacktestScreenshot) :
    List BacktestScreenshot → List BacktestScreenshot
  | [] => [b]
  | c :: cs =>
      if c.createdAt ≤ b.createdAt then b :: c :: cs
      else c :: insertDescByCreatedAt b cs

/-- Sorting backtests newest-created-first, modelling Dexie
`orderBy('createdAt').reverse()`. -/
def sortDescByCreatedAt : List BacktestScreenshot → List BacktestScreenshot
  | [] => []
  | b :: bs => insertDescByCreatedAt b (sortDescByCreatedAt bs)

/-- `getAllBacktests` from src/src/db/index.ts
(`db.backtests.orderBy('createdAt').reverse().toArray()`). -/
def getAllBacktests (db : Database) : List BacktestScreenshot :=
  sortDescByCreatedAt db.backtests

/-- Modelled from the spec: `db.export()` (provided by the
dexie-export-import addon, whose implementation is not part of this
repository's sources) serializes all three tables and the schema version
into one self-describing artifact. -/
structure ExportArtifact where
  schemaVersion : Nat
  trades : List Trade
  missedTrades : List MissedTrade
  backtests : List BacktestScreenshot
deriving DecidableEq, Repr

/-- Modelled from the spec: `exportDatabase` (src/src/db/index.ts lines
141-143) wraps `db.export()`; the store's schema version is 3. -/
def exportDatabase (db : Database) : ExportArtifact :=
  { schemaVersion := 3
  , trades := db.trades
  , missedTrades := db.missedTrades
  , backtests := db.backtests }

/-- Modelled from the spec: `importDatabase` (src/src/db/index.ts lines
145-147) wraps `db.import(blob)`, which validates the artifact's
schema/version tag and on success replaces the store contents entirely. -/
def importDatabase (a : ExportArtifact) (_old : Database) : Except ImportError Database :=
  if a.schemaVersion = 3 then
    .ok { trades := a.trades, missedTrades := a.missedTrades, backtests := a.backtests }
  else
    .error ImportError.formatMismatch

/-- Membership is preserved by one descending insertion. -/
lemma mem_insertDescByCreatedAt (x b : BacktestScreenshot)
    (l : List BacktestScreenshot) :
    x ∈ insertDescByCreatedAt b l ↔ x = b ∨ x ∈ l := by
  induction l with
  | nil => simp [insertDescByCreatedAt]
  | cons c cs ih =>
      by_cases h : c.createdAt ≤ b.createdAt
      · simp [insertDescByCreatedAt, h]
      · simp [insertDescByCreatedAt, h, ih]
        tauto

/-- Sorting backtests newest-first keeps exactly the same records. -/
lemma mem_sortDescByCreatedAt (x : BacktestScreenshot)
    (l : List BacktestScreenshot) :
    x ∈ sortDescByCreatedAt l ↔ x ∈ l := by
  induction l with
  | nil => simp [sortDescByCreatedAt]
  | cons b bs ih => simp [sortDescByCreatedAt, mem_insertDescByCreatedAt, ih]

/-- An update keyed on an absent id is the identity. -/
lemma updById_not_found {α : Type} (idOf : α → String) (id : String) (g : α → α)
    (l : List α) (h : findById idOf id l = none) :
    updById idOf id g l = l := by
  induction l with
  | nil => rfl
  | cons a rest ih =>
      by_cases ha : idOf a = id
      · simp [findById, ha] at h
      · simp only [findById, ha, if_false, reduceIte] at h
        simp [updById, ha] at ih ⊢
        exact ih h

/-- Looking up the updated id finds the modified record, provided the
modification preserves ids. -/
lemma findById_updById_self {α : Type} (idOf : α → String) (id : String)
    (g : α → α) (hid : ∀ a, idOf (g a) = idOf a) (l : List α) :
    findById idOf id (updById idOf id g l) = (findById idOf id l).map g := by
  induction l with
  | nil => rfl
  | cons a rest ih =>
      by_cases ha : idOf a = id
      · simp [updById, findById, ha, hid]
      · simp only [updById, List.map_cons, ha, if_false, reduceIte, findById]
        simpa [updById] using ih

/-- Looking up any other id is unaffected by the update. -/
lemma findById_updById_other {α : Type} (idOf : α → String) (id id' : String)
    (g : α → α) (hid : ∀ a, idOf (g a) = idOf a) (hne : id' ≠ id) (l : List α) :
    findById idOf id' (updById idOf id g l) = findById idOf id' l := by
  induction l with
  | nil => rfl
  | cons a rest ih =>
      simp only [updById, List.map_cons]
      by_cases ha : idOf a = id
      · rw [if_pos ha]
        have hga : idOf (g a) ≠ id' := by
          rw [hid, ha]; exact fun hc => hne hc.symm
        have ha' : idOf a ≠ id' := by
          rw [ha]; exact fun hc => hne hc.symm
        simp only [findById, hga, ha', if_false, reduceIte]
        simpa [updById] using ih
      · rw [if_neg ha]
        simp only [findById]
        by_cases ha' : idOf a = id'
        · simp [ha']
        · simp only [ha', if_false, reduceIte]
          simpa [updById] using ih

/-- C3: importing the export of a store reproduces an equivalent store —
the import succeeds and every trade, missed trade and backtest present
before the export is retrievable afterwards, both in the `getAll` snapshots
and by id. -/
theorem exportImport_roundTrip (db dbOld db' : Database)
    (h : importDatabase (exportDatabase db) dbOld = .ok db') :
    (∀ t ∈ db.trades, t ∈ getAllTrades db')
  ∧ (∀ m ∈ db.missedTrades, m ∈ getAllMissedTrades db')
  ∧ (∀ b ∈ db.backtests, b ∈ getAllBacktests db')
  ∧ (∀ id, getTrade db' id = getTrade db id
        ∧ getMissedTrade db' id = getMissedTrade db id
        ∧ getBacktest db' id = getBacktest db id) := by
  have hdb : db' = db := by
    simp only [importDatabase, exportDatabase, reduceIte, Except.ok.injEq] at h
    exact h.symm
  rw [hdb]
  refine ⟨fun t ht => ht, fun m hm => hm,
          fun b hb => (mem_sortDescByCreatedAt b db.backtests).mpr hb,
          fun id => ⟨rfl, rfl, rfl⟩⟩

/-- The empty store. -/
def emptyDb : Database := { trades := [], missedTrades := [], backtests := [] }

/-- A concrete missed trade. -/
def sampleMissed : MissedTrade :=
  { id := "m-1", pair := "EUR/USD", entryType := .vTouch, missedDate := ⟨2025, 3, 1⟩
  , potentialEntry := 1, potentialExit := 2, potentialPips := 100
  , reason := "hesitated", createdAt := 1, updatedAt := 1 }

/-- A concrete backtest screenshot. -/
def sampleBacktest : BacktestScreenshot :=
  { id := "b-1", description := "setup", dataUrl := "data:image/png;base64"
  , currencyPair := "EUR/USD", entryType := .twoTouch, timeframe := "4h"
  , createdAt := 2 }

/-- A concrete store holding one record of each kind. -/
def sampleDb : Database :=
  { trades := [sampleWin], missedTrades := [sampleMissed], backtests := [sampleBacktest] }

/-- Witness for C3 at the one-record-per-kind store. -/
theorem exportImport_roundTrip_witness :
    importDatabase (exportDatabase sampleDb) emptyDb = .ok sampleDb
  ∧ sampleWin ∈ getAllTrades sampleDb
  ∧ sampleMissed ∈ getAllMissedTrades sampleDb
  ∧ sampleBacktest ∈ getAllBacktests sampleDb
  ∧ getTrade sampleDb "t-win" = getTrade sampleDb "t-win" := by
  have h := exportImport_roundTrip sampleDb emptyDb sampleDb rfl
  exact ⟨rfl, h.1 sampleWin (by simp [sampleDb]), h.2.1 sampleMissed (by simp [sampleDb]),
         h.2.2.1 sampleBacktest (by simp [sampleDb]), (h.2.2.2 "t-win").1⟩

/-- C4 counterexample: with an id absent from the store, `updateTrade`
completes successfully (Dexie's `update` resolves with 0 affected records
and the wrapper ignores that count) instead of failing with NotFound. -/
theorem updateTrade_absent_no_notFound :
    getTrade emptyDb "missing" = none
  ∧ updateTrade emptyDb "missing" {} 0 = .ok emptyDb
  ∧ updateTrade emptyDb "missing" {} 0 ≠ .error DbError.notFound :=
  ⟨rfl, rfl, fun hc => Except.noConfusion hc⟩

/-- C4 amended: for an absent id, `updateTrade`, `updateMissedTrade` and
`updateBacktest` complete without error and leave the store unchanged; for a
present id, `updateTrade` merges the given fields into the stored record and
sets its `updatedAt` to the current time while keeping `id` and `createdAt`
and every other record unchanged (`updateMissedTrade` behaves analogously
and `updateBacktest` merges without touching any timestamp). -/
theorem updateTrade_amended (db : Database) (id : String) (p : TradePatch)
    (mp : MissedTradePatch) (bp : BacktestPatch) (now : ℚ) :
    (getTrade db id = none → updateTrade db id p now = .ok db)
  ∧ (getMissedTrade db id = none → updateMissedTrade db id mp now = .ok db)
  ∧ (getBacktest db id = none → updateBacktest db id bp = .ok db)
  ∧ (∀ db', updateTrade db id p now = .ok db' →
        getTrade db' id = (getTrade db id).map (fun t => applyTradePatch t p now)
      ∧ (∀ id', id' ≠ id → getTrade db' id' = getTrade db id')
      ∧ (∀ t, (applyTradePatch t p now).id = t.id
            ∧ (applyTradePatch t p now).createdAt = t.createdAt
            ∧ (applyTradePatch t p now).updatedAt = now))
  ∧ (∀ db', updateMissedTrade db id mp now = .ok db' →
        getMissedTrade db' id
          = (getMissedTrade db id).map (fun m => applyMissedTradePatch m mp now)
      ∧ (∀ m, (applyMissedTradePatch m mp now).updatedAt = now))
  ∧ (∀ db', updateBacktest db id bp = .ok db' →
        getBacktest db' id = (getBacktest db id).map (fun b => applyBacktestPatch b bp)
      ∧ (∀ b, (applyBacktestPatch b bp).createdAt = b.createdAt)) := by
  refine ⟨?_, ?_, ?_, ?_, ?_, ?_⟩
  · intro h
    unfold updateTrade
    rw [updById_not_found _ _ _ _ h]
  · intro h
    unfold updateMissedTrade
    rw [updById_not_found _ _ _ _ h]
  · intro h
    unfold updateBacktest
    rw [updById_not_found _ _ _ _ h]
  · intro db' h
    simp only [updateTrade, Except.ok.injEq] at h
    subst h
    refine ⟨?_, ?_, fun t => ⟨rfl, rfl, rfl⟩⟩
    · show findById Trade.id id
          (updById Trade.id id (fun t => applyTradePatch t p now) db.trades)
        = (findById Trade.id id db.trades).map (fun t => applyTradePatch t p now)
      exact findById_updById_self Trade.id id (fun t => applyTradePatch t p now) (fun t => rfl) db.trades
    · intro id' hne
      show findById Trade.id id'
          (updById Trade.id id (fun t => applyTradePatch t p now) db.trades)
        = findById Trade.id id' db.trades
      exact findById_updById_other Trade.id id id' (fun t => applyTradePatch t p now) (fun t => rfl) hne db.trades
  · intro db' h
    simp only [updateMissedTrade, Except.ok.injEq] at h
    subst h
    refine ⟨?_, fun m => rfl⟩
    show findById MissedTrade.id id
        (updById MissedTrade.id id (fun m => applyMissedTradePatch m mp now) db.missedTrades)
      = (findById MissedTrade.id id db.missedTrades).map
          (fun m => applyMissedTradePatch m mp now)
    exact findById_updById_self MissedTrade.id id (fun m => applyMissedTradePatch m mp now) (fun m => rfl) db.missedTrades
  · intro db' h
    simp only [updateBacktest, Except.ok.injEq] at h
    subst h
    refine ⟨?_, fun b => rfl⟩
    show findById BacktestScreenshot.id id
        (updById BacktestScreenshot.id id (fun b => applyBacktestPatch b bp) db.backtests)
      = (findById BacktestScreenshot.id id db.backtests).map (fun b => applyBacktestPatch b bp)
    exact findById_updById_self BacktestScreenshot.id id (fun b => applyBacktestPatch b bp) (fun b => rfl) db.backtests

/-- The sample store after updating the stored winning trade at time 5. -/
def sampleDbUpdated : Database :=
  ((updateTrade sampleDb "t-win" {} 5).toOption).getD emptyDb

/-- Witness for the amended C4: an absent-id update is a successful no-op on
the sample store, and a present-id update merges and refreshes `updatedAt`. -/
theorem updateTrade_amended_witness :
    getTrade sampleDb "missing" = none
  ∧ updateTrade sampleDb "missing" {} 0 = .ok sampleDb
  ∧ updateTrade sampleDb "t-win" {} 5 = .ok sampleDbUpdated
  ∧ getTrade sampleDbUpdated "t-win"
      = (getTrade sampleDb "t-win").map (fun t => applyTradePatch t {} 5) := by
  have h0 := updateTrade_amended sampleDb "missing" {} {} {} 0
  have h5 := updateTrade_amended sampleDb "t-win" {} {} {} 5
  exact ⟨rfl, h0.1 rfl, rfl, (h5.2.2.2.1 sampleDbUpdated rfl).1⟩

/-- The proleptic-Gregorian leap-year rule used by JS `Date`. -/
def isLeapYear (y : Int) : Bool :=
  (y % 4 == 0 && y % 100 != 0) || y % 400 == 0

/-- Days in a 0-based month of a given year. -/
def daysInMonth (y : Int) (m : Nat) : Nat :=
  match m with
  | 1 => if isLeapYear y then 29 else 28
  | 3 => 30
  | 5 => 30
  | 8 => 30
  | 10 => 30
  | _ => 31

/-- JS `date.setMonth(m)` on a date `d`: the month index is normalized into
year and 0-11 month (JS accepts any integer, carrying into the year), and a
day-of-month exceeding the target month's length overflows into the
following month.  For calendar days (`day ≤ 31`) the excess is at most 3,
so a single carry step suffices. -/
def setMonthJS (d : JSDate) (m : Int) : JSDate :=
  let y : Int := d.year + m / 12
  let mo : Nat := (m % 12).toNat
  if d.day ≤ daysInMonth y mo then ⟨y, mo, d.day⟩
  else if mo = 11 then ⟨y + 1, 0, d.day - daysInMonth y mo⟩
  else ⟨y, mo + 1, d.day - daysInMonth y mo⟩

/-- The `'en-US'` short month names produced by
`toLocaleDateString('en-US', { month: 'short' })`. -/
def monthShortName : Nat → String
  | 0 => "Jan"
  | 1 => "Feb"
  | 2 => "Mar"
  | 3 => "Apr"
  | 4 => "May"
  | 5 => "Jun"
  | 6 => "Jul"
  | 7 => "Aug"
  | 8 => "Sep"
  | 9 => "Oct"
  | 10 => "Nov"
  | _ => "Dec"

/-- The month-bucket key of `generateChartData`: the string
`toLocaleDateString('en-US', { month: 'short', year: 'numeric' })`, e.g.
`"Mar 2025"`.  Rendering the pair (short month name, year) into that string
is injective, so the pair itself is used as the key. -/
structure MonthLabel where
  monthName : String
  year : Int
deriving DecidableEq, Repr

/-- The bucket label of a date: its short month name and year. -/
def labelOf (d : JSDate) : MonthLabel :=
  { monthName := monthShortName d.month, year := d.year }

/-- `last6Months` from statsCalculator.ts lines 104-108:
`Array.from({length: 6}, (_, i) => { const date = new Date();
date.setMonth(date.getMonth() - i); return date.toLocaleDateString(...) })
.reverse()`, with the current date passed explicitly. -/
def last6Months (now : JSDate) : List MonthLabel :=
  ((List.range 6).map
    (fun (i : Nat) => labelOf (setMonthJS now ((now.month : Int) - (i : Int))))).reverse

/-- One `{ win: 0, loss: 0, breakeven: 0 }` month bucket. -/
structure MonthBucket where
  win : Nat
  loss : Nat
  breakeven : Nat
deriving DecidableEq, Repr

/-- `acc[month][trade.outcome] += 1`. -/
def bumpBucket (o : TradeOutcome) (b : MonthBucket) : MonthBucket :=
  match o with
  | .win => { b with win := b.win + 1 }
  | .loss => { b with loss := b.loss + 1 }
  | .breakeven => { b with breakeven := b.breakeven + 1 }

/-- One step of the `trades.reduce` building `tradesByMonth`
(statsCalculator.ts lines 110-126): create the month's zero bucket if absent
(appended in key-insertion order), then bump the outcome counter. -/
def monthStep (acc : List (MonthLabel × MonthBucket)) (t : Trade) :
    List (MonthLabel × MonthBucket) :=
  let k := labelOf t.entryDate
  match assocFind k acc with
  | none => acc ++ [(k, bumpBucket t.outcome ⟨0, 0, 0⟩)]
  | some _ => updAssoc k (bumpBucket t.outcome) acc

/-- The `tradesByMonth` object of statsCalculator.ts. -/
def tradesByMonth (ts : List Trade) : List (MonthLabel × MonthBucket) :=
  ts.foldl monthStep []

/-- `monthlyWins = last6Months.map(month => tradesByMonth[month]?.win || 0)`. -/
def monthlyWins (now : JSDate) (ts : List Trade) : List Nat :=
  (last6Months now).map (fun m =>
    match assocFind m (tradesByMonth ts) with
    | some b => b.win
    | none => 0)

/-- `monthlyLosses`, as `monthlyWins` with the `loss` counter. -/
def monthlyLosses (now : JSDate) (ts : List Trade) : List Nat :=
  (last6Months now).map (fun m =>
    match assocFind m (tradesByMonth ts) with
    | some b => b.loss
    | none => 0)

/-- `monthlyBreakeven`, as `monthlyWins` with the `breakeven` counter. -/
def monthlyBreakeven (now : JSDate) (ts : List Trade) : List Nat :=
  (last6Months now).map (fun m =>
    match assocFind m (tradesByMonth ts) with
    | some b => b.breakeven
    | none => 0)

/-- The `byMonth` half of the object returned by `generateChartData`
(statsCalculator.ts lines 151-173): the six labels and the three aligned
count series. -/
structure ByMonthData where
  labels : List MonthLabel
  wins : List Nat
  losses : List Nat
  breakeven : List Nat
deriving DecidableEq, Repr

/-- The monthly series of `generateChartData`, with the current date passed
explicitly. -/
def generateChartDataByMonth (now : JSDate) (ts : List Trade) : ByMonthData :=
  { labels := last6Months now
  , wins := monthlyWins now ts
  , losses := monthlyLosses now ts
  , breakeven := monthlyBreakeven now ts }

/-- March 31, 2025 (month index 2, day 31). -/
def mar31 : JSDate := ⟨2025, 2, 31⟩

/-- C9 counterexample: on March 31, 2025 the `setMonth(getMonth() - i)`
arithmetic overflows month ends, so the six labels contain `"Mar 2025"` and
`"Dec 2024"` twice each and the trailing months February 2025 and November
2024 have no bucket at all — the series does not consist of six distinct
labels covering the trailing six calendar months. -/
theorem generateChartData_month_duplicate :
    (generateChartDataByMonth mar31 []).labels
      = [⟨"Oct", 2024⟩, ⟨"Dec", 2024⟩, ⟨"Dec", 2024⟩,
         ⟨"Jan", 2025⟩, ⟨"Mar", 2025⟩, ⟨"Mar", 2025⟩]
  ∧ ¬ (generateChartDataByMonth mar31 []).labels.Nodup
  ∧ (⟨"Feb", 2025⟩ : MonthLabel) ∉ (generateChartDataByMonth mar31 []).labels
  ∧ (⟨"Nov", 2024⟩ : MonthLabel) ∉ (generateChartDataByMonth mar31 []).labels :=
  ⟨by decide, by decide, by decide, by decide⟩

/-- Every month has at least 28 days. -/
lemma daysInMonth_ge (y : Int) (m : Nat) : 28 ≤ daysInMonth y m := by
  unfold daysInMonth
  split
  all_goals first
    | omega
    | (split <;> omega)

/-- The label of the trailing month `idx` counted in absolute months
(`year * 12 + month`). -/
def monthIndexLabel (idx : Int) : MonthLabel :=
  { monthName := monthShortName (idx % 12).toNat, year := idx / 12 }

/-- The label of the calendar month `k` months before `now`. -/
def monthsBack (now : JSDate) (k : Nat) : MonthLabel :=
  monthIndexLabel (now.year * 12 + now.month - k)

/-- With a day-of-month of at most 28, `setMonth` never overflows, and the
resulting label is the absolute-month label. -/
lemma labelOf_setMonthJS (now : JSDate) (m : Int) (hd : now.day ≤ 28) :
    labelOf (setMonthJS now m) = monthIndexLabel (now.year * 12 + m) := by
  have h28 : now.day ≤ daysInMonth (now.year + m / 12) ((m % 12).toNat) :=
    le_trans hd (daysInMonth_ge _ _)
  unfold setMonthJS
  rw [if_pos h28]
  unfold labelOf monthIndexLabel
  have hm : (now.year * 12 + m) % 12 = m % 12 := by omega
  have hy : (now.year * 12 + m) / 12 = now.year + m / 12 := by omega
  rw [hm, hy]

/-- The twelve short month names are pairwise distinct. -/
lemma monthShortName_inj :
    ∀ a, a < 12 → ∀ b, b < 12 → monthShortName a = monthShortName b → a = b := by
  decide

/-- Distinct absolute months get distinct labels. -/
lemma monthIndexLabel_inj {i j : Int} (h : monthIndexLabel i = monthIndexLabel j) :
    i = j := by
  unfold monthIndexLabel at h
  simp only [MonthLabel.mk.injEq] at h
  have h1 : (i % 12).toNat = (j % 12).toNat :=
    monthShortName_inj _ (by omega) _ (by omega) h.1
  omega

/-- Pointwise form of the six labels under the no-overflow condition. -/
lemma labelOf_setMonthJS_back (now : JSDate) (hd : now.day ≤ 28) (i : Nat) :
    labelOf (setMonthJS now ((now.month : Int) - (i : Int))) = monthsBack now i := by
  rw [labelOf_setMonthJS now _ hd]
  unfold monthsBack
  congr 1
  omega

/-- With a day-of-month of at most 28 the six labels are exactly the
trailing six calendar months, oldest first. -/
lemma last6Months_eq (now : JSDate) (hd : now.day ≤ 28) :
    last6Months now
      = [monthsBack now 5, monthsBack now 4, monthsBack now 3,
         monthsBack now 2, monthsBack now 1, monthsBack now 0] := by
  unfold last6Months
  rw [show List.range 6 = [0, 1, 2, 3, 4, 5] from rfl]
  simp only [List.map_cons, List.map_nil, labelOf_setMonthJS_back now hd, List.reverse_cons,
    List.reverse_nil, List.nil_append, List.cons_append]

/-- With a day-of-month of at most 28 the six labels are pairwise distinct. -/
lemma last6Months_nodup (now : JSDate) (hd : now.day ≤ 28) :
    (last6Months now).Nodup := by
  have he : last6Months now = ((List.range 6).map (monthsBack now)).reverse := by
    unfold last6Months
    refine congrArg List.reverse ?_
    exact List.map_congr_left (fun i _ => labelOf_setMonthJS_back now hd i)
  rw [he, List.nodup_reverse]
  refine List.Nodup.map_on ?_ (List.nodup_range 6)
  intro a _ b _ hab
  unfold monthsBack at hab
  have := monthIndexLabel_inj hab
  omega

/-- The number of trades of a given outcome whose entry date falls in the
month of a given label. -/
def countOutcomeInMonth : List Trade → MonthLabel → TradeOutcome → Nat
  | [], _, _ => 0
  | t :: ts, m, o =>
      (if labelOf t.entryDate = m ∧ t.outcome = o then 1 else 0)
      + countOutcomeInMonth ts m o

/-- Reading one counter of the bucket of a label (`?.win || 0`). -/
def bucketCount (acc : List (MonthLabel × MonthBucket)) (m : MonthLabel)
    (proj : MonthBucket → Nat) : Nat :=
  match assocFind m acc with
  | some b => proj b
  | none => 0

/-- A lookup misses an appended tail exactly when it missed the front. -/
lemma assocFind_append_of_none {κ β : Type} [DecidableEq κ] (k : κ)
    (l₁ l₂ : List (κ × β)) (h : assocFind k l₁ = none) :
    assocFind k (l₁ ++ l₂) = assocFind k l₂ := by
  induction l₁ with
  | nil => rfl
  | cons p l₁ ih =>
      obtain ⟨k', v⟩ := p
      by_cases hk : k = k'
      · simp [assocFind, hk] at h
      · simp only [assocFind, hk, if_false, reduceIte] at h
        simp only [List.cons_append, assocFind, hk, if_false, reduceIte]
        exact ih h

/-- A successful lookup is unaffected by appending. -/
lemma assocFind_append_of_some {κ β : Type} [DecidableEq κ] {k : κ}
    {l₁ : List (κ × β)} {v : β} (l₂ : List (κ × β))
    (h : assocFind k l₁ = some v) :
    assocFind k (l₁ ++ l₂) = some v := by
  induction l₁ with
  | nil => simp [assocFind] at h
  | cons p l₁ ih =>
      obtain ⟨k', w⟩ := p
      by_cases hk : k = k'
      · simp only [assocFind, hk, if_true, reduceIte] at h ⊢
        simpa [List.cons_append, assocFind] using h
      · simp only [assocFind, hk, if_false, reduceIte] at h
        simp only [List.cons_append, assocFind, hk, if_false, reduceIte]
        exact ih h

/-- The reduce step when the month has no bucket yet. -/
lemma monthStep_of_none (acc : List (MonthLabel × MonthBucket)) (t : Trade)
    (h : assocFind (labelOf t.entryDate) acc = none) :
    monthStep acc t
      = acc ++ [(labelOf t.entryDate, bumpBucket t.outcome ⟨0, 0, 0⟩)] := by
  simp only [monthStep]
  rw [h]

/-- The reduce step when the month already has a bucket. -/
lemma monthStep_of_some (acc : List (MonthLabel × MonthBucket)) (t : Trade)
    (b : MonthBucket) (h : assocFind (labelOf t.entryDate) acc = some b) :
    monthStep acc t = updAssoc (labelOf t.entryDate) (bumpBucket t.outcome) acc := by
  simp only [monthStep]
  rw [h]

/-- One reduce step changes exactly the matched label's bucket by one. -/
lemma bucketCount_monthStep (acc : List (MonthLabel × MonthBucket)) (t : Trade)
    (m : MonthLabel) (o : TradeOutcome) (proj : MonthBucket → Nat)
    (hproj : ∀ o' b, proj (bumpBucket o' b) = proj b + (if o' = o then 1 else 0))
    (hzero : proj ⟨0, 0, 0⟩ = 0) :
    bucketCount (monthStep acc t) m proj
      = bucketCount acc m proj
        + (if labelOf t.entryDate = m ∧ t.outcome = o then 1 else 0) := by
  cases hk : assocFind (labelOf t.entryDate) acc with
  | none =>
      rw [monthStep_of_none acc t hk]
      by_cases hm : m = labelOf t.entryDate
      · subst hm
        unfold bucketCount
        rw [assocFind_append_of_none _ _ _ hk, hk]
        simp [assocFind, hproj, hzero]
      · unfold bucketCount
        cases hma : assocFind m acc with
        | some b =>
            rw [assocFind_append_of_some _ hma]
            have hcond : ¬ (labelOf t.entryDate = m ∧ t.outcome = o) :=
              fun hc => hm hc.1.symm
            simp [hcond]
        | none =>
            rw [assocFind_append_of_none _ _ _ hma]
            have hcond : ¬ (labelOf t.entryDate = m ∧ t.outcome = o) :=
              fun hc => hm hc.1.symm
            simp [assocFind, hm, hcond]
  | some b =>
      rw [monthStep_of_some acc t b hk]
      unfold bucketCount
      rw [assocFind_updAssoc]
      by_cases hm : m = labelOf t.entryDate
      · subst hm
        rw [if_pos rfl, hk]
        simp [hproj]
      · rw [if_neg hm]
        have hcond : ¬ (labelOf t.entryDate = m ∧ t.outcome = o) :=
          fun hc => hm hc.1.symm
        simp [hcond]

/-- The reduce over the whole list counts, for every label, the trades of
each outcome falling in that month. -/
lemma bucketCount_foldl (o : TradeOutcome) (proj : MonthBucket → Nat)
    (hproj : ∀ o' b, proj (bumpBucket o' b) = proj b + (if o' = o then 1 else 0))
    (hzero : proj ⟨0, 0, 0⟩ = 0) (ts : List Trade) :
    ∀ (acc : List (MonthLabel × MonthBucket)) (m : MonthLabel),
      bucketCount (ts.foldl monthStep acc) m proj
        = bucketCount acc m proj + countOutcomeInMonth ts m o := by
  induction ts with
  | nil => intro acc m; simp [countOutcomeInMonth]
  | cons t ts ih =>
      intro acc m
      rw [List.foldl_cons, ih (monthStep acc t) m,
        bucketCount_monthStep acc t m o proj hproj hzero]
      have hrec : countOutcomeInMonth (t :: ts) m o
          = (if labelOf t.entryDate = m ∧ t.outcome = o then 1 else 0)
            + countOutcomeInMonth ts m o := rfl
      rw [hrec]
      omega

/-- The whole reduce counts outcomes per month starting from no buckets. -/
lemma bucketCount_tradesByMonth (ts : List Trade) (m : MonthLabel)
    (o : TradeOutcome) (proj : MonthBucket → Nat)
    (hproj : ∀ o' b, proj (bumpBucket o' b) = proj b + (if o' = o then 1 else 0))
    (hzero : proj ⟨0, 0, 0⟩ = 0) :
    bucketCount (tradesByMonth ts) m proj = countOutcomeInMonth ts m o := by
  have h := bucketCount_foldl o proj hproj hzero ts [] m
  simpa [tradesByMonth, bucketCount, assocFind] using h

/-- C9 amended: provided the current date's day-of-month is at most 28 (so
the `setMonth` arithmetic cannot overflow a shorter target month), the
monthly series has exactly 6 pairwise-distinct (month-name, year) buckets
covering the trailing 6 calendar months ending at the current month, ordered
oldest to newest, and each count series lists, per bucket, the number of
trades of that outcome whose entry date matches the bucket's month and year
(hence zero for months with no trades). -/
theorem generateChartData_byMonth_amended (now : JSDate) (ts : List Trade)
    (hm : now.month < 12) (hd : now.day ≤ 28) :
    (generateChartDataByMonth now ts).labels
      = [monthsBack now 5, monthsBack now 4, monthsBack now 3,
         monthsBack now 2, monthsBack now 1, monthsBack now 0]
  ∧ (generateChartDataByMonth now ts).labels.length = 6
  ∧ (generateChartDataByMonth now ts).labels.Nodup
  ∧ monthsBack now 0 = labelOf now
  ∧ (generateChartDataByMonth now ts).wins
      = (generateChartDataByMonth now ts).labels.map
          (fun m => countOutcomeInMonth ts m TradeOutcome.win)
  ∧ (generateChartDataByMonth now ts).losses
      = (generateChartDataByMonth now ts).labels.map
          (fun m => countOutcomeInMonth ts m TradeOutcome.loss)
  ∧ (generateChartDataByMonth now ts).breakeven
      = (generateChartDataByMonth now ts).labels.map
          (fun m => countOutcomeInMonth ts m TradeOutcome.breakeven) := by
  refine ⟨last6Months_eq now hd, ?_, last6Months_nodup now hd, ?_, ?_, ?_, ?_⟩
  · rw [show (generateChartDataByMonth now ts).labels = last6Months now from rfl,
      last6Months_eq now hd]
    rfl
  · have hx : ((now.year * 12 + (now.month : Int) - ((0 : Nat) : Int)) % 12).toNat
        = now.month := by omega
    have hy : (now.year * 12 + (now.month : Int) - ((0 : Nat) : Int)) / 12
        = now.year := by omega
    unfold monthsBack monthIndexLabel labelOf
    rw [MonthLabel.mk.injEq]
    exact ⟨congrArg monthShortName hx, hy⟩
  · show monthlyWins now ts
      = (last6Months now).map (fun m => countOutcomeInMonth ts m TradeOutcome.win)
    unfold monthlyWins
    refine List.map_congr_left ?_
    intro m _
    show bucketCount (tradesByMonth ts) m MonthBucket.win
      = countOutcomeInMonth ts m TradeOutcome.win
    refine bucketCount_tradesByMonth ts m _ _ ?_ rfl
    intro o' b
    cases o' <;> simp [bumpBucket]
  · show monthlyLosses now ts
      = (last6Months now).map (fun m => countOutcomeInMonth ts m TradeOutcome.loss)
    unfold monthlyLosses
    refine List.map_congr_left ?_
    intro m _
    show bucketCount (tradesByMonth ts) m MonthBucket.loss
      = countOutcomeInMonth ts m TradeOutcome.loss
    refine bucketCount_tradesByMonth ts m _ _ ?_ rfl
    intro o' b
    cases o' <;> simp [bumpBucket]
  · show monthlyBreakeven now ts
      = (last6Months now).map (fun m => countOutcomeInMonth ts m TradeOutcome.breakeven)
    unfold monthlyBreakeven
    refine List.map_congr_left ?_
    intro m _
    show bucketCount (tradesByMonth ts) m MonthBucket.breakeven
      = countOutcomeInMonth ts m TradeOutcome.breakeven
    refine bucketCount_tradesByMonth ts m _ _ ?_ rfl
    intro o' b
    cases o' <;> simp [bumpBucket]

/-- June 15, 2025 (month index 5, day 15): a date where no overflow occurs. -/
def jun15 : JSDate := ⟨2025, 5, 15⟩

/-- Witness for the amended C9 on June 15, 2025 with the sample winning
trade (entered January 2025, which falls in the 6-month window). -/
theorem generateChartData_byMonth_amended_witness :
    jun15.month < 12
  ∧ jun15.day ≤ 28
  ∧ (generateChartDataByMonth jun15 [sampleWin]).labels.Nodup
  ∧ (generateChartDataByMonth jun15 [sampleWin]).wins
      = (generateChartDataByMonth jun15 [sampleWin]).labels.map
          (fun m => countOutcomeInMonth [sampleWin] m TradeOutcome.win) := by
  have h := generateChartData_byMonth_amended jun15 [sampleWin]
    (by decide) (by decide)
  exact ⟨by decide, by decide, h.2.2.1, h.2.2.2.2.1⟩

end TradeJournal
